import Mathlib

set_option maxHeartbeats 1000000

/-!
Shallow embedding of the gear request-dispatch engine (app.go) and of the
per-request Context collaborator it drives.  The dispatch state machine,
error normalization, server-start operations and the wrapping helpers are
translated from app.go.  The Context/Response implementation lives outside
the visible core, so those definitions are modelled from the spec and are
marked as such in their doc comments.
-/

namespace GearApp

/-- Go error values are represented by their message string, i.e. the result of
their Error method.  A possibly-nil Go error is an Option Err, none standing
for a nil error. -/
abbrev Err := String

/-- Numeric-code-plus-message error value from Go's net/textproto package,
used by NewError in app.go. -/
structure TextprotoError where
  Msg : String
  Code : Int
deriving Repr, DecidableEq

/-- Left-pad a digit string with zeros up to width w. -/
def padZeros (w : Nat) (s : String) : String :=
  if s.length < w then String.mk (List.replicate (w - s.length) '0') ++ s else s

/-- Go fmt formatting verb %03d: decimal, zero-padded to a minimum width of 3,
the width counting the sign. -/
def fmt03 (n : Int) : String :=
  if n < 0 then "-" ++ padZeros 2 (toString n.natAbs) else padZeros 3 (toString n.toNat)

/-- Method Error of Go's *textproto.Error: fmt.Sprintf on format "%03d %s"
with Code and Msg. -/
def TextprotoError.error (e : TextprotoError) : String :=
  fmt03 e.Code ++ " " ++ e.Msg

/-- NewError (app.go): build a textproto.Error carrying the error's message
and the given status code. -/
def NewError (err : Err) (code : Int) : TextprotoError :=
  { Msg := err, Code := code }

/-- NewAppError (app.go): an error whose message carries the "[Gear] " prefix. -/
def NewAppError (err : String) : String :=
  "[Gear] " ++ err

/-- Modelled from the spec: the response collaborator (its implementation is
outside the visible dispatch core).  Per the spec it exposes a settable status
code, a "fully written" flag (finished), the body written so far and the
underlying transport writer, modelled as an opaque identifier (none when the
binding was reset to nil).  Fresh fields take Go zero values. -/
structure Response where
  w : Option Nat
  Status : Int
  finished : Bool
  body : String
deriving Repr, DecidableEq

/-- Modelled from the spec: respond finalizes the response and performs the
transport write (dispatch step 7).  The transport outcome is external and is
passed in as flushErr. -/
def Response.respond (r : Response) (flushErr : Option Err) : Response × Option Err :=
  ({ r with finished := true }, flushErr)

/-- Modelled from the spec: the per-request Context — request binding,
response binding, the ended flag and the queue of after-hooks.  Requests and
after-hooks are opaque and identified by numbers; a none request binding is a
nil binding. -/
structure Context where
  Req : Option Nat
  Res : Response
  ended : Bool
  afterHooks : List Nat
deriving Repr, DecidableEq

/-- Modelled from the spec: Context.Reset rebinds the request and the response
writer and clears the ended flag and the after-hooks; the release-time reset
passes nil (none) bindings so no reference to the served pair survives. -/
def Context.Reset (_ctx : Context) (w : Option Nat) (req : Option Nat) : Context :=
  { Req := req
    Res := { w := w, Status := 0, finished := false, body := "" }
    ended := false
    afterHooks := [] }

/-- Modelled from the spec: Context.Status sets the response status code. -/
def Context.Status (ctx : Context) (code : Int) : Context :=
  { ctx with Res := { ctx.Res with Status := code } }

/-- Modelled from the spec: ctx.String writes its argument as the response
body. -/
def Context.String (ctx : Context) (s : String) : Context :=
  { ctx with Res := { ctx.Res with body := s } }

/-- Modelled from the spec: NewContext allocates a fresh, unbound context
(one per pool slot, lazily). -/
def NewContext : Context :=
  { Req := none
    Res := { w := none, Status := 0, finished := false, body := "" }
    ended := false
    afterHooks := [] }

/-- Middleware (app.go): func(*Context) error, modelled as a state transformer
returning the mutated context and an optional error. -/
abbrev Middleware := Context → Context × Option Err

/-- Handler interface (app.go): wraps the Serve function. -/
structure Handler where
  Serve : Middleware

/-- Go http.Handler / http.HandlerFunc: an external handler acting on the
response writer; modelled as a function from the context's response and
request binding to an updated response. -/
abbrev HttpHandler := Response → Option Nat → Response

/-- WrapHandler (app.go): wrap an http.Handler into a gear Middleware; it
calls h.ServeHTTP(ctx.Res, ctx.Req) and returns nil. -/
def WrapHandler (h : HttpHandler) : Middleware :=
  fun ctx => ({ ctx with Res := h ctx.Res ctx.Req }, none)

/-- WrapHandlerFunc (app.go): wrap an http.HandlerFunc into a gear
Middleware; it calls h(ctx.Res, ctx.Req) and returns nil. -/
def WrapHandlerFunc (h : HttpHandler) : Middleware :=
  fun ctx => ({ ctx with Res := h ctx.Res ctx.Req }, none)

/-- Destination a log line was written to: the configured ErrorLog or the
process-wide default logger. -/
inductive LogSink
  | errorLog
  | processLog
deriving Repr, DecidableEq

/-- Gear (app.go): the app instance — registered middleware, the OnError
normalization hook and the optional ErrorLog (an opaque logger identifier,
none meaning nil). -/
structure Gear where
  middleware : List Middleware
  OnError : Context → Err → Option TextprotoError
  ErrorLog : Option Nat

/-- Gear.New (app.go): empty middleware list and the default OnError hook,
which returns NewError(err, 500). -/
def Gear.New : Gear :=
  { middleware := []
    OnError := fun _ err => some (NewError err 500)
    ErrorLog := none }

/-- Gear.Use (app.go): append a middleware to the chain. -/
def Gear.Use (g : Gear) (handle : Middleware) : Gear :=
  { g with middleware := g.middleware ++ [handle] }

/-- Gear.UseHandler (app.go): append the Serve function of a Handler. -/
def Gear.UseHandler (g : Gear) (h : Handler) : Gear :=
  { g with middleware := g.middleware ++ [h.Serve] }

/-- Gear.Error (app.go lines 155-163): the error-logging sink.  The result is
the list of log lines actually emitted (destination and printed value).  The
guard in the source is written `if err == nil`, so only a nil error value ever
reaches a logger. -/
def Gear.Error (g : Gear) (err : Option Err) : List (LogSink × Option Err) :=
  if err = none then
    match g.ErrorLog with
    | some _ => [(LogSink.errorLog, err)]
    | none => [(LogSink.processLog, err)]
  else []

/-- serveHandler (app.go): the http.Handler built from the app; holds the app
and the snapshot of its middleware chain. -/
structure serveHandler where
  app : Gear
  middleware : List Middleware

/-- Gear.toServeHandler (app.go lines 92-97): build the serveHandler; with an
empty middleware chain it panics with NewAppError "no middleware".  The panic
is modelled as Except.error carrying the panic value's message. -/
def Gear.toServeHandler (g : Gear) : Except String serveHandler :=
  if g.middleware.length = 0 then Except.error (NewAppError "no middleware")
  else Except.ok { app := g, middleware := g.middleware.drop 0 }

/-- Outcome of the chain loop: final context, the error that stopped the loop
(if any) and the number of middleware units actually invoked. -/
structure RunOut where
  ctx : Context
  err : Option Err
  invoked : Nat
deriving Repr, DecidableEq

/-- The chain loop of serveHandler.ServeHTTP (app.go lines 175-182): invoke
the middleware in order; stop at the first unit returning a non-nil error and,
after an errorless unit, stop when ctx.ended or ctx.Res.finished holds. -/
def runChain : List Middleware → Context → RunOut
  | [], ctx => ⟨ctx, none, 0⟩
  | m :: ms, ctx =>
    match m ctx with
    | (c, some e) => ⟨c, some e, 1⟩
    | (c, none) =>
      if c.ended || c.Res.finished then ⟨c, none, 1⟩
      else
        let r := runChain ms c
        ⟨r.ctx, r.err, r.invoked + 1⟩

/-- Continue condition of the chain loop evaluated on a loop state: no error
was returned and neither completion flag is set. -/
def contAfter (r : RunOut) : Bool :=
  r.err.isNone && !r.ctx.ended && !r.ctx.Res.finished

/-- Error normalization (app.go lines 186-192): a non-nil chain error is
passed to OnError; a non-nil record sets the response status to its code and
replaces the working error by errors.New on the record's Error() rendering. -/
def normalize (g : Gear) (ctx : Context) (e : Option Err) : Context × Option Err :=
  match e with
  | none => (ctx, none)
  | some err =>
    match g.OnError ctx err with
    | some ctxErr => (ctx.Status ctxErr.Code, some ctxErr.error)
    | none => (ctx, some err)

/-- Observations of the success/error branch (app.go lines 194-205). -/
structure BranchOut where
  ctx : Context
  hooksRun : Option (List Nat)
  errBody : Option String
  reported : List Err
  logged : List (LogSink × Option Err)

/-- Success/error branch (app.go lines 194-205).  With no error the queued
after-hooks run; with an error the status is forced to 500 when below 400, the
error is handed to Gear.Error when the status is at least 500, the error's
message is written as the body and the after-hooks are cleared. -/
def errorBranch (g : Gear) (ctx : Context) (e : Option Err) : BranchOut :=
  match e with
  | none =>
    { ctx := ctx, hooksRun := some ctx.afterHooks, errBody := none
      reported := [], logged := [] }
  | some err =>
    let ctx := if ctx.Res.Status < 400 then { ctx with Res := { ctx.Res with Status := 500 } } else ctx
    let reported := if ctx.Res.Status ≥ 500 then [err] else []
    let logged := if ctx.Res.Status ≥ 500 then g.Error (some err) else []
    let ctx := ctx.String err
    { ctx := { ctx with afterHooks := [] }, hooksRun := none, errBody := some err
      reported := reported, logged := logged }

/-- Observable outcome of one dispatched request. -/
structure ServeObs where
  invoked : Nat
  hooksRun : Option (List Nat)
  errBody : Option String
  reported : List Err
  logged : List (LogSink × Option Err)
  status : Int
  body : String
  finished : Bool
deriving Repr, DecidableEq

/-- Result of one dispatched request: the context released back to the pool,
the context just before the release-time reset, and the observations. -/
structure ServeResult where
  released : Context
  final : Context
  obs : ServeObs
deriving Repr, DecidableEq

/-- serveHandler.ServeHTTP (app.go lines 170-214) for one request: reset the
pooled context onto the request pair, run the chain, set ended, normalize the
error, take the success or error branch, flush (reporting a flush failure to
Gear.Error), then reset the context with nil bindings for release.  pooled is
the context acquired from the pool; w and r identify the response writer and
the request; flushErr is the transport outcome of the final flush. -/
def serveHandler.ServeHTTP (h : serveHandler) (pooled : Context) (w r : Nat)
    (flushErr : Option Err) : ServeResult :=
  let ctx := pooled.Reset (some w) (some r)
  let ro := runChain h.middleware ctx
  let ctx1 := { ro.ctx with ended := true }
  let ne := normalize h.app ctx1 ro.err
  let br := errorBranch h.app ne.1 ne.2
  let rf := br.ctx.Res.respond flushErr
  let ctx2 := { br.ctx with Res := rf.1 }
  let reported := br.reported ++ (match rf.2 with | some fe => [fe] | none => [])
  let logged := br.logged ++ (match rf.2 with | some fe => h.app.Error (some fe) | none => [])
  { released := ctx2.Reset none none
    final := ctx2
    obs := { invoked := ro.invoked, hooksRun := br.hooksRun, errBody := br.errBody
             reported := reported, logged := logged
             status := ctx2.Res.Status, body := ctx2.Res.body, finished := ctx2.Res.finished } }

/-- The context pool (sync.Pool) modelled as a free list; Get on an empty pool
allocates a fresh context via NewContext. -/
def poolGet (pool : List Context) : Context × List Context :=
  match pool with
  | [] => (NewContext, [])
  | c :: rest => (c, rest)

/-- Returning a context to the pool. -/
def poolPut (pool : List Context) (c : Context) : List Context :=
  c :: pool

/-- One full request through the dispatch engine including the pool acquire at
the start and the release at the end. -/
def servePooled (h : serveHandler) (pool : List Context) (w r : Nat)
    (flushErr : Option Err) : ServeResult × List Context :=
  let p := poolGet pool
  let res := h.ServeHTTP p.1 w r flushErr
  (res, poolPut p.2 res.released)

/-- Setup state reached by a blocking start operation right before the
external ListenAndServe call: the bound address, the installed handler and
whether the optional error logger was attached. -/
structure ServerState where
  Addr : String
  handler : serveHandler
  errorLogSet : Bool

/-- Gear.Listen (app.go lines 110-117): set the address, install the handler
built by toServeHandler (whose panic on an empty chain propagates), attach the
error logger if configured, then hand over to the external ListenAndServe. -/
def Gear.Listen (g : Gear) (addr : String) : Except String ServerState :=
  match g.toServeHandler with
  | Except.error p => Except.error p
  | Except.ok h =>
    Except.ok { Addr := addr, handler := h, errorLogSet := g.ErrorLog.isSome }

/-- Gear.ListenTLS (app.go lines 120-127): as Gear.Listen, additionally
carrying the certificate and key file names to the external
ListenAndServeTLS. -/
def Gear.ListenTLS (g : Gear) (addr certFile keyFile : String) :
    Except String (ServerState × String × String) :=
  match g.toServeHandler with
  | Except.error p => Except.error p
  | Except.ok h =>
    Except.ok ({ Addr := addr, handler := h, errorLogSet := g.ErrorLog.isSome },
      certFile, keyFile)

/-- The network listener handed back by a successful bind; it reports the
address it is bound to. -/
structure NetListener where
  addr : String
deriving Repr, DecidableEq

/-- ServerListener (app.go lines 44-62): the handle returned by the
non-blocking start, wrapping the bound listener.  The one-shot completion
channel consumed by Wait is external to this embedding. -/
structure ServerListener where
  l : NetListener
deriving Repr, DecidableEq

/-- ServerListener.Addr (app.go): the bound address, read from the wrapped
listener. -/
def ServerListener.Addr (s : ServerListener) : String :=
  s.l.addr

/-- Address computation of Gear.Start (app.go lines 133-136): default to the
ephemeral "127.0.0.1:0" when no address is supplied or the first one is the
empty string. -/
def startAddr (addr : List String) : String :=
  match addr with
  | [] => "127.0.0.1:0"
  | a :: _ => if a ≠ "" then a else "127.0.0.1:0"

/-- Gear.Start (app.go lines 132-152): the non-blocking start.  The handler is
installed first (toServeHandler's panic on an empty chain propagates), then
the listener is bound; a bind failure panics with NewAppError rather than
returning an error — the Go signature has no error result, so Except.error
models only panics here.  net.Listen is the external network collaborator,
passed in as bind. -/
def Gear.Start (g : Gear) (addr : List String) (bind : String → Except Err NetListener) :
    Except String ServerListener :=
  let laddr := startAddr addr
  match g.toServeHandler with
  | Except.error p => Except.error p
  | Except.ok _ =>
    match bind laddr with
    | Except.error err =>
      Except.error (NewAppError ("failed to listen on " ++ laddr ++ ": " ++ err))
    | Except.ok l => Except.ok { l := l }

/-- A middleware that returns the given error without touching the context. -/
def constErr (E : Err) : Middleware :=
  fun ctx => (ctx, some E)

/-- The app of the single-failing-unit scenario: a fresh app with one
middleware that fails with "boom". -/
def gBoom : Gear :=
  Gear.New.Use (constErr "boom")

/-- The serve handler belonging to gBoom, as toServeHandler builds it. -/
def hBoom : serveHandler :=
  { app := gBoom, middleware := gBoom.middleware }

/-- Ordering and short-circuit property of the chain loop on a chain ms from
a starting context: the number k of invoked units is at most the chain length;
the outcome is already produced by the invoked prefix; a nonempty chain
invokes at least one unit; every strict prefix of the invoked units ran
completely with no error; the loop's continue condition held after every unit
but possibly the last; the loop either exhausted the chain or stopped for
cause; and once it stopped for cause, any units appended after the invoked
prefix leave the outcome unchanged — they are never invoked. -/
def chainRunSpec (ms : List Middleware) (ctx : Context) : Prop :=
  (runChain ms ctx).invoked ≤ ms.length ∧
  runChain (ms.take (runChain ms ctx).invoked) ctx = runChain ms ctx ∧
  (ms ≠ [] → 0 < (runChain ms ctx).invoked) ∧
  (∀ j, j < (runChain ms ctx).invoked →
    (runChain (ms.take j) ctx).invoked = j ∧ (runChain (ms.take j) ctx).err = none) ∧
  (∀ j, 0 < j → j < (runChain ms ctx).invoked →
    contAfter (runChain (ms.take j) ctx) = true) ∧
  ((runChain ms ctx).invoked = ms.length ∨ contAfter (runChain ms ctx) = false) ∧
  (contAfter (runChain ms ctx) = false → 0 < (runChain ms ctx).invoked →
    ∀ rest, runChain (ms.take (runChain ms ctx).invoked ++ rest) ctx = runChain ms ctx)

/-- The app with a single middleware failing with E, under the default
OnError hook. -/
def gConst (E : Err) : Gear :=
  Gear.New.Use (constErr E)

/-- The serve handler belonging to gConst E, as toServeHandler builds it. -/
def hConst (E : Err) : serveHandler :=
  { app := gConst E, middleware := (gConst E).middleware }

/-- An app whose OnError hook resolves every error to the record with message
"oops" and code 404, with a single middleware failing with "x". -/
def gRec404 : Gear :=
  { Gear.New.Use (constErr "x") with
    OnError := fun _ _ => some { Msg := "oops", Code := 404 } }

/-- The serve handler belonging to gRec404. -/
def hRec404 : serveHandler :=
  { app := gRec404, middleware := gRec404.middleware }

/-- A network collaborator that accepts every bind and reports the requested
address as the bound one. -/
def bindOk : String → Except Err NetListener :=
  fun a => Except.ok { addr := a }

/-- A network collaborator that refuses every bind. -/
def bindFail : String → Except Err NetListener :=
  fun _ => Except.error "address in use"

/-- What the normalization step and the dispatch observations look like when
OnError returned the record rec for chain error e: the status is set to the
record's code, the working error becomes the record's textproto rendering,
the body is that rendering, and the final status is the record's code unless
the error path forces a sub-400 code up to 500. -/
def recNormSpec (h : serveHandler) (pooled : Context) (w r : Nat) (f : Option Err)
    (e : Err) (rec : TextprotoError) : Prop :=
  normalize h.app
      { (runChain h.middleware (pooled.Reset (some w) (some r))).ctx with ended := true }
      (some e) =
    (({ (runChain h.middleware (pooled.Reset (some w) (some r))).ctx with
        ended := true } : Context).Status rec.Code, some rec.error) ∧
  (h.ServeHTTP pooled w r f).obs.errBody = some rec.error ∧
  (h.ServeHTTP pooled w r f).obs.body = rec.error ∧
  (h.ServeHTTP pooled w r f).obs.status = (if rec.Code < 400 then 500 else rec.Code)

/-- What dispatch observes when the chain produced error e: the error path
runs — no after-hook runs and the queue is discarded, the normalized error's
message is written as the body, and a post-normalization status below 400 is
forced to 500. -/
def errorPathSpec (h : serveHandler) (pooled : Context) (w r : Nat) (f : Option Err)
    (e : Err) : Prop :=
  (h.ServeHTTP pooled w r f).obs.hooksRun = none ∧
  (∃ m,
    (normalize h.app
      { (runChain h.middleware (pooled.Reset (some w) (some r))).ctx with ended := true }
      (some e)).2 = some m ∧
    (h.ServeHTTP pooled w r f).obs.errBody = some m ∧
    (h.ServeHTTP pooled w r f).obs.body = m) ∧
  (h.ServeHTTP pooled w r f).final.afterHooks = [] ∧
  (h.ServeHTTP pooled w r f).obs.status =
    (if (normalize h.app
        { (runChain h.middleware (pooled.Reset (some w) (some r))).ctx with ended := true }
        (some e)).1.Res.Status < 400 then 500
     else (normalize h.app
        { (runChain h.middleware (pooled.Reset (some w) (some r))).ctx with ended := true }
        (some e)).1.Res.Status) ∧
  ((normalize h.app
      { (runChain h.middleware (pooled.Reset (some w) (some r))).ctx with ended := true }
      (some e)).1.Res.Status < 400 → (h.ServeHTTP pooled w r f).obs.status = 500)

/-- Per-request dichotomy: either the after-hook path ran — running exactly
the hooks queued during the chain and writing no error body — or the error
path ran — writing the error's message as the body and discarding the queued
hooks; never both, and the error path runs exactly when the chain produced an
error. -/
def hookDichotomySpec (h : serveHandler) (pooled : Context) (w r : Nat)
    (f : Option Err) : Prop :=
  ((h.ServeHTTP pooled w r f).obs.hooksRun =
      some (runChain h.middleware (pooled.Reset (some w) (some r))).ctx.afterHooks ∧
    (h.ServeHTTP pooled w r f).obs.errBody = none ∨
   (h.ServeHTTP pooled w r f).obs.hooksRun = none ∧
    (∃ m, (h.ServeHTTP pooled w r f).obs.errBody = some m ∧
      (h.ServeHTTP pooled w r f).obs.body = m ∧
      (h.ServeHTTP pooled w r f).final.afterHooks = [])) ∧
  ¬((h.ServeHTTP pooled w r f).obs.hooksRun ≠ none ∧
    (h.ServeHTTP pooled w r f).obs.errBody ≠ none) ∧
  ((h.ServeHTTP pooled w r f).obs.hooksRun = none ↔
    (runChain h.middleware (pooled.Reset (some w) (some r))).err ≠ none)

/-- Pool round trip of one dispatched request: the pool's size records that
exactly one context was acquired and exactly one was released, the next
acquire hands back the just-released context, and that context carries nil
request and writer bindings, a cleared ended flag, no after-hooks and an
empty body. -/
def poolRoundTripSpec (h : serveHandler) (pool : List Context) (w r : Nat)
    (f : Option Err) : Prop :=
  (servePooled h pool w r f).2.length = (if pool = [] then 1 else pool.length) ∧
  (servePooled h pool w r f).2 ≠ [] ∧
  (poolGet (servePooled h pool w r f).2).1 = (servePooled h pool w r f).1.released ∧
  (servePooled h pool w r f).1.released.Req = none ∧
  (servePooled h pool w r f).1.released.Res.w = none ∧
  (servePooled h pool w r f).1.released.ended = false ∧
  (servePooled h pool w r f).1.released.afterHooks = [] ∧
  (servePooled h pool w r f).1.released.Res.body = "" ∧
  (servePooled h pool w r f).1.released.Res.finished = false

/-- Fail-fast gate of the server-start operations: with an empty chain all
three abort with the "no middleware" application error; with a nonempty chain
Listen and ListenTLS proceed to serving and Start either succeeds or aborts
with the bind-failure application error — never the "no middleware" one. -/
def startGateSpec (g : Gear) (addr certFile keyFile : String) (addrs : List String)
    (bind : String → Except Err NetListener) : Prop :=
  (g.middleware = [] →
    g.Listen addr = Except.error (NewAppError "no middleware") ∧
    g.ListenTLS addr certFile keyFile = Except.error (NewAppError "no middleware") ∧
    g.Start addrs bind = Except.error (NewAppError "no middleware")) ∧
  (g.middleware ≠ [] →
    (∃ s, g.Listen addr = Except.ok s) ∧
    (∃ t, g.ListenTLS addr certFile keyFile = Except.ok t) ∧
    ((∃ sl, g.Start addrs bind = Except.ok sl) ∨
      (∃ e, bind (startAddr addrs) = Except.error e ∧
        g.Start addrs bind =
          Except.error
            (NewAppError ("failed to listen on " ++ startAddr addrs ++ ": " ++ e)))) ∧
    g.Start addrs bind ≠ Except.error (NewAppError "no middleware"))

/-- Behavior of the non-blocking Start: an omitted or empty address argument
binds the ephemeral local address; a bind failure aborts with the application
error (Start's Go signature has no error result, so aborting is the only
failure channel); a successful bind yields the handle exposing the bound
address. -/
def startSpec (g : Gear) (addrs : List String)
    (bind : String → Except Err NetListener) : Prop :=
  ((addrs = [] ∨ (∃ rest, addrs = "" :: rest)) → startAddr addrs = "127.0.0.1:0") ∧
  (∀ a rest, addrs = a :: rest → a ≠ "" → startAddr addrs = a) ∧
  (g.middleware ≠ [] →
    (∀ e, bind (startAddr addrs) = Except.error e →
      g.Start addrs bind =
        Except.error
          (NewAppError ("failed to listen on " ++ startAddr addrs ++ ": " ++ e))) ∧
    (∀ l, bind (startAddr addrs) = Except.ok l →
      g.Start addrs bind = Except.ok { l := l } ∧
      (({ l := l } : ServerListener)).Addr = l.addr))

/-- Wrapped handlers return nil unconditionally, so in the chain loop they can
never stop the iteration through the error rule — only through the completion
flags. -/
def wrapSpec (h : HttpHandler) (ctx : Context) (ms : List Middleware) : Prop :=
  (WrapHandler h ctx).2 = none ∧
  (WrapHandlerFunc h ctx).2 = none ∧
  (WrapHandler h ctx).1 = { ctx with Res := h ctx.Res ctx.Req } ∧
  runChain (WrapHandler h :: ms) ctx =
    (if ({ ctx with Res := h ctx.Res ctx.Req } : Context).ended
        || (h ctx.Res ctx.Req).finished then
      ⟨{ ctx with Res := h ctx.Res ctx.Req }, none, 1⟩
    else
      ⟨(runChain ms { ctx with Res := h ctx.Res ctx.Req }).ctx,
        (runChain ms { ctx with Res := h ctx.Res ctx.Req }).err,
        (runChain ms { ctx with Res := h ctx.Res ctx.Req }).invoked + 1⟩) ∧
  runChain (WrapHandlerFunc h :: ms) ctx = runChain (WrapHandler h :: ms) ctx

theorem runChain_cons_err {m : Middleware} {ctx c : Context} {e : Err}
    (ms : List Middleware) (hm : m ctx = (c, some e)) :
    runChain (m :: ms) ctx = ⟨c, some e, 1⟩ := by
  simp [runChain, hm]

theorem runChain_cons_stop {m : Middleware} {ctx c : Context}
    (ms : List Middleware) (hm : m ctx = (c, none))
    (hf : (c.ended || c.Res.finished) = true) :
    runChain (m :: ms) ctx = ⟨c, none, 1⟩ := by
  simp [runChain, hm, hf]

theorem runChain_cons_cont {m : Middleware} {ctx c : Context}
    (ms : List Middleware) (hm : m ctx = (c, none))
    (hf : (c.ended || c.Res.finished) = false) :
    runChain (m :: ms) ctx =
      ⟨(runChain ms c).ctx, (runChain ms c).err, (runChain ms c).invoked + 1⟩ := by
  simp [runChain, hm, hf]

theorem runChain_invoked_pos (m : Middleware) (ms : List Middleware) (ctx : Context) :
    0 < (runChain (m :: ms) ctx).invoked := by
  rcases hm : m ctx with ⟨c, oe⟩
  cases oe with
  | some e => simp [runChain_cons_err ms hm]
  | none =>
    cases hf : (c.ended || c.Res.finished) with
    | false => simp [runChain_cons_cont ms hm hf]
    | true => simp [runChain_cons_stop ms hm hf]

theorem runChain_invoked_eq_zero {ms : List Middleware} {ctx : Context}
    (h : (runChain ms ctx).invoked = 0) : runChain ms ctx = ⟨ctx, none, 0⟩ := by
  cases ms with
  | nil => rfl
  | cons m ms => exact absurd h (Nat.pos_iff_ne_zero.mp (runChain_invoked_pos m ms ctx))

theorem runChain_spec (ms : List Middleware) (ctx : Context) : chainRunSpec ms ctx := by
  induction ms generalizing ctx with
  | nil =>
    unfold chainRunSpec
    refine ⟨Nat.le_refl _, rfl, fun hne => absurd rfl hne, ?_, ?_, Or.inl rfl, ?_⟩
    · intro j hj
      exact absurd hj (Nat.not_lt_zero j)
    · intro j _ hj
      exact absurd hj (Nat.not_lt_zero j)
    · intro _ hpos
      exact absurd hpos (lt_irrefl 0)
  | cons m ms ih =>
    rcases hm : m ctx with ⟨c, oe⟩
    cases oe with
    | some e =>
      have hr1 : ∀ rest, runChain (m :: rest) ctx = ⟨c, some e, 1⟩ :=
        fun rest => runChain_cons_err rest hm
      unfold chainRunSpec
      rw [hr1 ms]
      dsimp only
      refine ⟨by simp, ?_, fun _ => Nat.one_pos, ?_, ?_, Or.inr (by simp [contAfter]), ?_⟩
      · simpa using hr1 []
      · intro j hj
        have hj0 : j = 0 := Nat.lt_one_iff.mp hj
        subst hj0
        simp [runChain]
      · intro j hj0 hj1
        omega
      · intro _ _ rest
        simpa using hr1 rest
    | none =>
      cases hf : (c.ended || c.Res.finished) with
      | true =>
        have hr1 : ∀ rest, runChain (m :: rest) ctx = ⟨c, none, 1⟩ :=
          fun rest => runChain_cons_stop rest hm hf
        unfold chainRunSpec
        rw [hr1 ms]
        dsimp only
        refine ⟨by simp, ?_, fun _ => Nat.one_pos, ?_, ?_, Or.inr ?_, ?_⟩
        · simpa using hr1 []
        · intro j hj
          have hj0 : j = 0 := Nat.lt_one_iff.mp hj
          subst hj0
          simp [runChain]
        · intro j hj0 hj1
          omega
        · cases hce : c.ended <;> cases hcf : c.Res.finished <;>
            simp_all [contAfter]
        · intro _ _ rest
          simpa using hr1 rest
      | false =>
        obtain ⟨ih1, ih2, _ih3, ih4, ih5, ih6, ih7⟩ := ih c
        have hr1 : ∀ rest, runChain (m :: rest) ctx =
            ⟨(runChain rest c).ctx, (runChain rest c).err, (runChain rest c).invoked + 1⟩ :=
          fun rest => runChain_cons_cont rest hm hf
        unfold chainRunSpec
        rw [hr1 ms]
        dsimp only
        refine ⟨by simp; omega, ?_, fun _ => Nat.succ_pos _, ?_, ?_, ?_, ?_⟩
        · rw [List.take_succ_cons, hr1 (ms.take (runChain ms c).invoked), ih2]
        · intro j hj
          cases j with
          | zero => simp [runChain]
          | succ j' =>
            have hj' : j' < (runChain ms c).invoked := Nat.lt_of_succ_lt_succ hj
            have h4 := ih4 j' hj'
            rw [List.take_succ_cons, hr1 (ms.take j')]
            exact ⟨by dsimp only; rw [h4.1], h4.2⟩
        · intro j hj0 hj1
          cases j with
          | zero => exact absurd hj0 (lt_irrefl 0)
          | succ j' =>
            have hj' : j' < (runChain ms c).invoked := Nat.lt_of_succ_lt_succ hj1
            rw [List.take_succ_cons, hr1 (ms.take j')]
            rcases Nat.eq_zero_or_pos j' with hj0' | hj0'
            · subst hj0'
              have hz : runChain (ms.take 0) c = ⟨c, none, 0⟩ := rfl
              rw [hz]
              cases hce : c.ended <;> cases hcf : c.Res.finished <;>
                simp_all [contAfter]
            · exact ih5 j' hj0' hj'
        · rcases ih6 with h | h
          · exact Or.inl (by simp [h])
          · exact Or.inr h
        · intro hstop _ rest
          have hstop' : contAfter (runChain ms c) = false := hstop
          rcases Nat.eq_zero_or_pos (runChain ms c).invoked with hK | hK
          · have hzero := runChain_invoked_eq_zero hK
            rw [hzero] at hstop'
            cases hce : c.ended <;> cases hcf : c.Res.finished <;>
              simp_all [contAfter]
          · rw [List.take_succ_cons, List.cons_append,
              hr1 (ms.take (runChain ms c).invoked ++ rest), ih7 hstop' hK rest]

/-- C1: for every registered middleware chain with at least one unit, dispatch
(serveHandler.ServeHTTP) invokes the units strictly in registration order,
stopping immediately after the first unit that returns a non-nil error or that
leaves the context's ended flag or the response's finished flag set, and no
later unit is ever invoked in that request: the number of invoked units
reported by ServeHTTP is the chain loop's, and the chain loop satisfies
chainRunSpec. -/
theorem serve_runs_chain_in_order_until_first_stop (h : serveHandler)
    (pooled : Context) (w r : Nat) (f : Option Err) :
    (h.ServeHTTP pooled w r f).obs.invoked =
      (runChain h.middleware (pooled.Reset (some w) (some r))).invoked ∧
    chainRunSpec h.middleware (pooled.Reset (some w) (some r)) :=
  ⟨rfl, runChain_spec _ _⟩

/-- Closed instance of the C1 theorem on the one-unit failing chain. -/
theorem serve_runs_chain_in_order_until_first_stop_witness :
    (hBoom.ServeHTTP NewContext 0 0 none).obs.invoked =
      (runChain hBoom.middleware (NewContext.Reset (some 0) (some 0))).invoked ∧
    chainRunSpec hBoom.middleware (NewContext.Reset (some 0) (some 0)) :=
  serve_runs_chain_in_order_until_first_stop hBoom NewContext 0 0 none

/-- C2 (code bug): on the single failing unit under the default hook the
final status is 500 and dispatch does hand the normalized error to Gear.Error,
but Gear.Error's guard is written `if err == nil`, so a non-nil error never
reaches the configured logger or the process-wide fallback: the emitted log
lines are empty, while a nil argument would be printed. -/
theorem error_sink_guard_inverted :
    gBoom.toServeHandler = Except.ok hBoom ∧
    (hBoom.ServeHTTP NewContext 0 0 none).obs.status = 500 ∧
    (hBoom.ServeHTTP NewContext 0 0 none).obs.reported = ["500 boom"] ∧
    (hBoom.ServeHTTP NewContext 0 0 none).obs.logged = [] ∧
    gBoom.Error (some "500 boom") = [] ∧
    gBoom.Error none = [(LogSink.processLog, none)] :=
  ⟨rfl, rfl, rfl, rfl, rfl, rfl⟩

/-- C3 counterexample: on the chain with exactly one middleware failing with
"boom" under the default OnError hook, the body written is "500 boom" — the
textproto rendering of the default record — and not the bare message "boom"
the claim requires. -/
theorem single_error_body_not_bare_message :
    (hBoom.ServeHTTP NewContext 0 0 none).obs.body = "500 boom" ∧
    (hBoom.ServeHTTP NewContext 0 0 none).obs.body ≠ "boom" :=
  ⟨rfl, by decide⟩

/-- C3 (amended): for every error message E, on the chain whose single
middleware fails with E under the default OnError hook, the response status is
500, the body written is the textproto rendering of the default record — the
text "500 " followed by E — no after-hook runs and the queued hooks are
discarded. -/
theorem single_error_default_hook_behavior (E : Err) (pooled : Context)
    (w r : Nat) (f : Option Err) :
    (gConst E).toServeHandler = Except.ok (hConst E) ∧
    ((hConst E).ServeHTTP pooled w r f).obs.status = 500 ∧
    ((hConst E).ServeHTTP pooled w r f).obs.body = "500 " ++ E ∧
    ((hConst E).ServeHTTP pooled w r f).obs.hooksRun = none ∧
    ((hConst E).ServeHTTP pooled w r f).final.afterHooks = [] := by
  refine ⟨rfl, rfl, ?_, rfl, rfl⟩
  have h1 : fmt03 500 ++ " " = "500 " := rfl
  calc ((hConst E).ServeHTTP pooled w r f).obs.body = fmt03 500 ++ " " ++ E := rfl
    _ = "500 " ++ E := by rw [h1]

/-- C4 counterexample: with an OnError hook returning the record carrying
message "oops" and code 404, the response status does become 404, but the
working error's message — and hence the body — is the rendering "404 oops",
not the record's bare message text "oops". -/
theorem normalized_error_message_not_bare :
    (hRec404.ServeHTTP NewContext 0 0 none).obs.status = 404 ∧
    (hRec404.ServeHTTP NewContext 0 0 none).obs.errBody = some "404 oops" ∧
    (hRec404.ServeHTTP NewContext 0 0 none).obs.body = "404 oops" ∧
    (hRec404.ServeHTTP NewContext 0 0 none).obs.body ≠ "oops" :=
  ⟨rfl, rfl, rfl, by decide⟩

/-- C4 (amended): whenever the chain produced error e and the configured
OnError hook returns the record rec, dispatch sets the response status to
rec.Code at the normalization step and replaces the working error with one
whose message is the textproto rendering of rec — the zero-padded three-digit
code, a space, then the message — so the body written is that rendering, and
the final status is rec.Code except that the error path afterwards forces a
code below 400 up to 500. -/
theorem normalized_record_sets_status_and_message (h : serveHandler)
    (pooled : Context) (w r : Nat) (f : Option Err) (e : Err) (rec : TextprotoError)
    (hchain : (runChain h.middleware (pooled.Reset (some w) (some r))).err = some e)
    (hone : h.app.OnError
      { (runChain h.middleware (pooled.Reset (some w) (some r))).ctx with ended := true }
      e = some rec) :
    recNormSpec h pooled w r f e rec := by
  unfold recNormSpec
  refine ⟨by simp [normalize, hone], ?_⟩
  by_cases hc : rec.Code < 400 <;>
    simp [serveHandler.ServeHTTP, hchain, normalize, hone, errorBranch,
      Context.Status, Context.String, Response.respond, hc]

/-- Closed instance of the C4 amended theorem on the gRec404 scenario. -/
theorem normalized_record_sets_status_and_message_witness :
    recNormSpec hRec404 NewContext 0 0 none "x" { Msg := "oops", Code := 404 } :=
  normalized_record_sets_status_and_message hRec404 NewContext 0 0 none "x"
    { Msg := "oops", Code := 404 } rfl rfl

/-- C5: for every dispatched request exactly one of the after-hook path and
the error-body path happens, never both and never neither; the after-hook
path runs exactly the queued hooks, the error path writes the error's message
as the body and discards the queued hooks, and the error path is taken
exactly when the chain produced an error. -/
theorem after_hooks_or_error_body (h : serveHandler) (pooled : Context)
    (w r : Nat) (f : Option Err) : hookDichotomySpec h pooled w r f := by
  unfold hookDichotomySpec
  rcases he : (runChain h.middleware (pooled.Reset (some w) (some r))).err with _ | e
  · refine ⟨Or.inl ⟨?_, ?_⟩, ?_, ?_⟩ <;>
      simp [serveHandler.ServeHTTP, he, normalize, errorBranch, Response.respond]
  · rcases hone : h.app.OnError
        { (runChain h.middleware (pooled.Reset (some w) (some r))).ctx with ended := true } e
      with _ | rec
    · refine ⟨Or.inr ⟨?_, ⟨e, ?_, ?_, ?_⟩⟩, ?_, ?_⟩ <;>
        simp [serveHandler.ServeHTTP, he, normalize, hone, errorBranch,
          Context.String, Response.respond]
    · refine ⟨Or.inr ⟨?_, ⟨rec.error, ?_, ?_, ?_⟩⟩, ?_, ?_⟩ <;>
        simp [serveHandler.ServeHTTP, he, normalize, hone, errorBranch,
          Context.Status, Context.String, Response.respond]

/-- C6: whenever the chain produced an error — whether OnError returns a
record or nil — the error path executes: no after-hook runs, the queue is
discarded, the normalized error's message becomes the body, and a
post-normalization status below 400 is forced to 500. -/
theorem unresolved_error_runs_error_path (h : serveHandler) (pooled : Context)
    (w r : Nat) (f : Option Err) (e : Err)
    (hchain : (runChain h.middleware (pooled.Reset (some w) (some r))).err = some e) :
    errorPathSpec h pooled w r f e := by
  unfold errorPathSpec
  rcases hone : h.app.OnError
      { (runChain h.middleware (pooled.Reset (some w) (some r))).ctx with ended := true } e
    with _ | rec
  · refine ⟨?_, ⟨e, ?_, ?_, ?_⟩, ?_, ?_, ?_⟩ <;>
      by_cases hc :
        (runChain h.middleware (pooled.Reset (some w) (some r))).ctx.Res.Status < 400 <;>
      simp [serveHandler.ServeHTTP, hchain, normalize, hone, errorBranch,
        Context.String, Response.respond, hc]
  · refine ⟨?_, ⟨rec.error, ?_, ?_, ?_⟩, ?_, ?_, ?_⟩ <;>
      by_cases hc : rec.Code < 400 <;>
      simp [serveHandler.ServeHTTP, hchain, normalize, hone, errorBranch,
        Context.Status, Context.String, Response.respond, hc]

/-- Closed instance of the C6 theorem on the single-failing-unit scenario. -/
theorem unresolved_error_runs_error_path_witness :
    errorPathSpec hBoom NewContext 0 0 none "boom" :=
  unresolved_error_runs_error_path hBoom NewContext 0 0 none "boom" rfl

/-- C7: each dispatched request acquires exactly one context from the pool
and releases exactly one back, and the released context — which the next
acquire hands out — carries nil request and writer bindings and cleared
per-request state. -/
theorem context_pool_round_trip (h : serveHandler) (pool : List Context)
    (w r : Nat) (f : Option Err) : poolRoundTripSpec h pool w r f := by
  unfold poolRoundTripSpec
  cases pool <;>
    refine ⟨?_, ?_, rfl, rfl, rfl, rfl, rfl, rfl, rfl⟩ <;>
    simp [servePooled, poolGet, poolPut]

/-- The bind-failure panic message can never coincide with the empty-chain
panic message. -/
theorem listen_panic_message_ne (laddr e : String) :
    NewAppError ("failed to listen on " ++ laddr ++ ": " ++ e) ≠
      NewAppError "no middleware" := by
  intro hcontr
  have hlen := congrArg String.length hcontr
  simp only [NewAppError, String.length_append] at hlen
  have e1 : ("failed to listen on " : String).length = 20 := rfl
  have e2 : (": " : String).length = 2 := rfl
  have e3 : ("no middleware" : String).length = 13 := rfl
  rw [e1, e2, e3] at hlen
  omega

/-- C8: with an empty middleware chain each server-start operation aborts
with the "no middleware" application error instead of serving; with at least
one registered middleware none of them aborts for this reason. -/
theorem empty_chain_fails_fast (g : Gear) (addr certFile keyFile : String)
    (addrs : List String) (bind : String → Except Err NetListener) :
    startGateSpec g addr certFile keyFile addrs bind := by
  unfold startGateSpec
  constructor
  · intro hempty
    refine ⟨?_, ?_, ?_⟩ <;>
      simp [Gear.Listen, Gear.ListenTLS, Gear.Start, Gear.toServeHandler, hempty]
  · intro hne
    have hlen : g.middleware.length ≠ 0 := fun hh => hne (List.length_eq_zero.mp hh)
    have ht : g.toServeHandler =
        Except.ok { app := g, middleware := g.middleware.drop 0 } := by
      simp [Gear.toServeHandler, hlen]
    refine ⟨⟨ServerState.mk addr (serveHandler.mk g (g.middleware.drop 0)) g.ErrorLog.isSome,
        by simp [Gear.Listen, ht]⟩,
      ⟨(ServerState.mk addr (serveHandler.mk g (g.middleware.drop 0)) g.ErrorLog.isSome,
        certFile, keyFile), by simp [Gear.ListenTLS, ht]⟩, ?_, ?_⟩
    · rcases hb : bind (startAddr addrs) with e | l
      · exact Or.inr ⟨e, rfl, by simp [Gear.Start, ht, hb]⟩
      · exact Or.inl ⟨{ l := l }, by simp [Gear.Start, ht, hb]⟩
    · rcases hb : bind (startAddr addrs) with e | l
      · simp only [Gear.Start, ht, hb]
        intro hcontr
        injection hcontr with hmsg
        exact listen_panic_message_ne (startAddr addrs) e hmsg
      · simp [Gear.Start, ht, hb]

/-- Closed instances of the C8 theorem: the empty-chain app aborts, the
one-unit app does not. -/
theorem empty_chain_fails_fast_witness :
    startGateSpec Gear.New "a" "crt" "key" [] bindFail ∧
    startGateSpec gBoom "a" "crt" "key" [] bindFail :=
  ⟨empty_chain_fails_fast Gear.New "a" "crt" "key" [] bindFail,
   empty_chain_fails_fast gBoom "a" "crt" "key" [] bindFail⟩

/-- C9: the non-blocking Start defaults to the ephemeral address 127.0.0.1:0
when the address argument is omitted or empty, aborts with the application
error when the listener cannot bind — its signature has no error result — and
on success returns the handle whose Addr is the listener's bound address. -/
theorem start_binds_or_aborts (g : Gear) (addrs : List String)
    (bind : String → Except Err NetListener) : startSpec g addrs bind := by
  unfold startSpec
  refine ⟨?_, ?_, ?_⟩
  · rintro (rfl | ⟨rest, rfl⟩) <;> simp [startAddr]
  · rintro a rest rfl hne
    simp [startAddr, hne]
  · intro hne
    have hlen : g.middleware.length ≠ 0 := fun hh => hne (List.length_eq_zero.mp hh)
    constructor
    · intro e hb
      simp [Gear.Start, Gear.toServeHandler, hlen, hb]
    · intro l hb
      exact ⟨by simp [Gear.Start, Gear.toServeHandler, hlen, hb], rfl⟩

/-- Closed instance of the C9 theorem on the one-unit app with an accepting
network collaborator. -/
theorem start_binds_or_aborts_witness : startSpec gBoom [] bindOk :=
  start_binds_or_aborts gBoom [] bindOk

/-- C10: middleware produced by WrapHandler and WrapHandlerFunc always return
nil, so they can never stop the chain through the short-circuit-on-error rule
or reach the error path by themselves; they can only end the chain via the
completion flags. -/
theorem wrapped_handlers_never_error (h : HttpHandler) (ctx : Context)
    (ms : List Middleware) : wrapSpec h ctx ms := by
  unfold wrapSpec
  exact ⟨rfl, rfl, rfl, rfl, rfl⟩

end GearApp
